import Mathlib

/-!
Verification of the films ranking service (`gpt.py` is the complete
implementation; `films.py` only stubs `top_n`/`write_file` with `pass`).

Embedding conventions:
* Python `str` is Lean `String`; the string operations the source uses
  (`split`, `strip`, `in` substring test, `<=` comparison, `int(...)`) are
  re-implemented below on `List Char` so that they compute by kernel
  reduction.  Python's code-point comparison and its `split`/`strip`
  semantics (explicit separator keeps empty pieces; `strip` removes
  surrounding whitespace) are preserved.
* Python `float` is modelled as `ℚ`: the ranking logic only adds, divides
  by small integers and compares ratings, and every claim is about which
  values are selected and how they are ordered, not about rounding.
* A data row, as consumed by `top_n`, is abstracted by `Movie`: the row
  fields the function reads are `row[1]` (title), `row[2]` (raw genres
  string), `row[5]` (raw cast string) and `float(row[8])` (rating).
* `read_file` works on the raw text lines; a Python exception
  (IndexError from `row[6]`, ValueError from `int(...)`, StopIteration
  from `next(file)` on an empty file) is `Except.error ()`.
-/

/-- Whitespace as stripped by Python's `str.strip()` (ASCII part). -/
def isPyWs (c : Char) : Bool :=
  c == ' ' || c == '\t' || c == '\n' || c == '\r' || c == '\x0b' || c == '\x0c'

/-- Drop leading and trailing whitespace from a character list. -/
def chTrim (l : List Char) : List Char :=
  ((l.dropWhile isPyWs).reverse.dropWhile isPyWs).reverse

/-- Python `s.strip()`. -/
def pyStrip (s : String) : String :=
  String.mk (chTrim s.data)

/-- Split a character list on a separator, keeping empty pieces,
like Python `str.split(sep)` with an explicit separator. -/
def chSplit (sep : Char) (l : List Char) : List (List Char) :=
  l.foldr
    (fun c acc =>
      if c == sep then [] :: acc
      else
        match acc with
        | [] => [[c]]
        | cur :: rest => (c :: cur) :: rest)
    [[]]

/-- Python `s.split(sep)` for a one-character separator. -/
def pySplit (sep : Char) (s : String) : List String :=
  (chSplit sep s.data).map String.mk

/-- Boolean list prefix test on characters. -/
def isPrefixB : List Char → List Char → Bool
  | [], _ => true
  | _ :: _, [] => false
  | a :: as, b :: bs => a == b && isPrefixB as bs

/-- Boolean contiguous-sublist test on characters. -/
def isSubstrB : List Char → List Char → Bool
  | n, [] => isPrefixB n []
  | n, c :: t => isPrefixB n (c :: t) || isSubstrB n t

/-- Python `needle in hay` on strings: contiguous substring containment. -/
def strContains (hay needle : String) : Bool :=
  isSubstrB needle.data hay.data

/-- Lexicographic code-point comparison on character lists,
the order Python uses for `str` comparison. -/
def chLe : List Char → List Char → Bool
  | [], _ => true
  | _ :: _, [] => false
  | a :: as, b :: bs => if a < b then true else if a == b then chLe as bs else false

/-- Python `a <= b` on strings (lexicographic, code-point order). -/
def pyStrLe (a b : String) : Bool :=
  chLe a.data b.data

/-- Value of a digit character. -/
def chDigitVal (c : Char) : Option Nat :=
  if c.isDigit then some (c.toNat - '0'.toNat) else none

/-- Value of a nonempty all-digit character list. -/
def digitsVal (l : List Char) : Option Nat :=
  match l with
  | [] => none
  | _ =>
    l.foldl
      (fun acc c =>
        match acc, chDigitVal c with
        | some v, some d => some (10 * v + d)
        | _, _ => none)
      (some 0)

/-- Python `int(s)` on strings: surrounding whitespace, an optional sign
and a nonempty digit run (digit-group underscores are not modelled; no
claim exercises them). `none` models `ValueError`. -/
def pyInt (s : String) : Option Int :=
  match chTrim s.data with
  | '-' :: rest => (digitsVal rest).map (fun n => -(n : Int))
  | '+' :: rest => (digitsVal rest).map (fun n => (n : Int))
  | t => (digitsVal t).map (fun n => (n : Int))

/-- A movie data row as read by `top_n` in `gpt.py`: `row[1]`, `row[2]`,
`row[5]` verbatim, and `float(row[8])` as a rational. -/
structure Movie where
  title : String
  genres : String
  cast : String
  rating : ℚ
deriving DecidableEq

/-- `gpt.py` lines 78-95: highest rating over all movies whose raw cast
string contains `actor_name` as a substring, starting from 0 and updating
on strictly larger ratings. -/
def highest_rating_for_actor (actor_name : String) (all_movies : List Movie) : ℚ :=
  all_movies.foldl
    (fun highest m =>
      if strContains m.cast actor_name then
        if m.rating > highest then m.rating else highest
      else highest)
    0

/-- `gpt.py` line 69: `set(genre.split(',')) if genre else set()`.
The requested genre tokens are not trimmed. -/
def genreSet (genre : String) : List String :=
  if genre == "" then [] else pySplit ',' genre

/-- `gpt.py` line 74: the record's genre tokens, comma-split and trimmed. -/
def movieGenreSet (m : Movie) : List String :=
  (pySplit ',' m.genres).map pyStrip

/-- `gpt.py` line 75: a record passes when no genres were requested or the
requested set intersects the record's trimmed genre-token set. -/
def passesGenre (genre : String) (m : Movie) : Bool :=
  (genreSet genre).isEmpty || (genreSet genre).any (fun g => (movieGenreSet m).contains g)

/-- `gpt.py` line 102: `actors = movie[5].split(',')`. -/
def castList (m : Movie) : List String :=
  pySplit ',' m.cast

/-- The trimmed cast-member names of a record. -/
def castTokens (m : Movie) : List String :=
  (castList m).map pyStrip

/-- `gpt.py` lines 105-110: sum of `highest_rating_for_actor(actor.strip(), data)`
over the comma-split cast, divided by the number of cast tokens
(the `if actors else 0` guard of line 110 is kept although `split` never
returns an empty list). -/
def actorRatingOf (data : List Movie) (m : Movie) : ℚ :=
  if (castList m).isEmpty then 0
  else
    ((castList m).map (fun a => highest_rating_for_actor (pyStrip a) data)).sum
      / ((castList m).length : ℚ)

/-- `gpt.py` lines 72-76 and 98-112: the `(title, rating, actor_rating)`
triples of the genre-filtered records, in input order.  The actor lookups
run over the unfiltered `data`, exactly as line 107 passes `data`. -/
def movieTuples (data : List Movie) (genre : String) : List (String × ℚ × ℚ) :=
  (data.filter (fun m => passesGenre genre m)).map
    (fun m => (m.title, m.rating, actorRatingOf data m))

/-- `gpt.py` lines 115-118: sort key `(-average_rating, title)`. -/
def sort_key (t : String × ℚ × ℚ) : ℚ × String :=
  (-((t.2.1 + t.2.2) / 2), t.1)

/-- The non-strict order on sort keys that Python's `sorted` establishes:
ascending lexicographic on `(ℚ, String)` with code-point string order. -/
def keyLe (x y : ℚ × String) : Bool :=
  decide (x.1 < y.1) || (decide (x.1 = y.1) && pyStrLe x.2 y.2)

/-- `gpt.py` line 121: the tuples sorted by `sort_key` (stable sort,
ascending in the key order, i.e. descending blended score with ascending
title on ties). -/
def sortedMovies (data : List Movie) (genre : String) : List (String × ℚ × ℚ) :=
  (movieTuples data genre).mergeSort (fun a b => keyLe (sort_key a) (sort_key b))

/-- `gpt.py` lines 124-128: truncate to `n` when `n > 0`, then project each
triple to `(title, (rating + actor_rating) / 2)`. -/
def top_n (data : List Movie) (genre : String) (n : Int) : List (String × ℚ) :=
  (if 0 < n then (sortedMovies data genre).take n.toNat
   else sortedMovies data genre).map
    (fun t => (t.1, (t.2.1 + t.2.2) / 2))

/-- State-threaded form of `top_n`: every operation the source applies to
its `data` argument (the filter loop of lines 73-76, the per-actor scans of
line 107 inside `highest_rating_for_actor`, and field reads) is a read, so
the embedding returns the argument value alongside the result. -/
def top_n_run (data : List Movie) (genre : String) (n : Int) :
    List (String × ℚ) × List Movie :=
  let filtered := data.filter (fun m => passesGenre genre m)
  let tuples := filtered.map (fun m => (m.title, m.rating, actorRatingOf data m))
  let sortedM := tuples.mergeSort (fun a b => keyLe (sort_key a) (sort_key b))
  let top := if 0 < n then sortedM.take n.toNat else sortedM
  (top.map (fun t => (t.1, (t.2.1 + t.2.2) / 2)), data)

/-- One record line is malformed for `read_file` in `gpt.py`: after strip
and `split(';')` it has no field at index 6, or that field is not an
integer.  Only these conditions raise; the field count is otherwise not
validated and the rating field is never parsed during loading. -/
def malformedLine (l : String) : Bool :=
  ((pySplit ';' (pyStrip l))[6]?.bind pyInt).isNone

/-- Body loop of `read_file` in `gpt.py` (lines 34-38): split each line,
parse the year at index 6 (any failure aborts the whole load), and keep
rows with `movie_year >= year`. -/
def readLoop (year : Int) : List String → Except Unit (List (List String))
  | [] => Except.ok []
  | l :: ls =>
    match (pySplit ';' (pyStrip l))[6]?.bind pyInt with
    | none => Except.error ()
    | some movie_year =>
      if year ≤ movie_year then (readLoop year ls).map (fun ms => (pySplit ';' (pyStrip l)) :: ms)
      else readLoop year ls

/-- `gpt.py` lines 30-40: skip the header (`next(file)` raises on an empty
file), then run the body loop. -/
def read_file (lines : List String) (year : Int) : Except Unit (List (List String)) :=
  match lines with
  | [] => Except.error ()
  | _ :: body => readLoop year body

/-- Follows the claim's words, not the source: a loader that recovers from
a malformed data line (wrong field count for the 12-field schema, or a
year not parseable as a number) by skipping that record and continuing.
The rating field is not checked because the source never parses it during
loading. -/
def skipLoop (year : Int) : List String → List (List String)
  | [] => []
  | l :: ls =>
    let row := pySplit ';' (pyStrip l)
    if row.length = 12 then
      match row[6]? with
      | none => skipLoop year ls
      | some y =>
        match pyInt y with
        | none => skipLoop year ls
        | some movie_year =>
          if year ≤ movie_year then row :: skipLoop year ls else skipLoop year ls
    else skipLoop year ls

/-- Follows the claim's words, not the source: `read_file` with local
recovery by skipping malformed records. -/
def read_file_skipping (lines : List String) (year : Int) : List (List String) :=
  match lines with
  | [] => []
  | _ :: body => skipLoop year body

/-- Follows the claim's words, not the source: the maximum `rating`
(starting from zero) among the records whose trimmed comma-split cast
tokens contain the actor's name exactly. -/
def claimActorMax (actor_name : String) (data : List Movie) : ℚ :=
  ((data.filter (fun m => (castTokens m).contains actor_name)).map Movie.rating).foldl max 0

/-- Follows the claim's words, not the source: genre filtering where the
requested tokens are comma-split and trimmed before the intersection test. -/
def claimPasses (genre : String) (m : Movie) : Bool :=
  genre == "" || ((pySplit ',' genre).map pyStrip).any (fun g => (movieGenreSet m).contains g)

/-- Membership of an actor name in the spec's actor-rating index built
from a dataset: the name occurs among the trimmed cast tokens of some
record. -/
def inActorIndex (actor_name : String) (data : List Movie) : Bool :=
  data.any (fun m => (castTokens m).contains actor_name)


/-! ### Concrete data used by counterexamples and witnesses -/

/-- Two records whose raw cast strings overlap as substrings but not as
trimmed cast tokens. -/
def c2data : List Movie := [⟨"A", "", "Ann", 5⟩, ⟨"B", "", "Anna", 9⟩]

/-- A record whose only genre is `Horror`. -/
def c3movie : Movie := ⟨"T", "Horror", "C", 5⟩

/-- A two-record dataset with disjoint casts. -/
def c4data : List Movie := [⟨"A", "G", "X", 5⟩, ⟨"B", "G", "Y", 7⟩]

/-- A one-record dataset with a two-member cast. -/
def c5data : List Movie := [⟨"A", "G", "X, Y", 6⟩]

/-- A record with cast `X`. -/
def c7m1 : Movie := ⟨"A", "G", "X", 5⟩

/-- A record with cast `XY`. -/
def c7m2 : Movie := ⟨"B", "G", "XY", 9⟩

/-- A dataset whose first record has an empty cast field. -/
def c10data : List Movie := [⟨"A", "G", "", 5⟩, ⟨"B", "G", "Bob", 9⟩]

/-- A header line, a data line with an unparsable year field, then a
well-formed data line. -/
def c6lines : List String :=
  ["head", "9;T;G;D;Dir;C;beta;100;5.0;10;1.0;50.0", "2;U;G;D;Dir;C;2000;100;6.0;10;1.0;50.0"]

/-! ### Helper lemmas -/

theorem chLe_nil_left (b : List Char) : chLe [] b = true := rfl

theorem chLe_cons (x y : Char) (xs ys : List Char) :
    chLe (x :: xs) (y :: ys) = true ↔ x < y ∨ (x = y ∧ chLe xs ys = true) := by
  by_cases h1 : x < y
  · simp [chLe, h1]
  · by_cases h2 : x = y
    · subst h2; simp [chLe, h1]
    · simp [chLe, h1, h2]

theorem chLe_total (a : List Char) : ∀ b : List Char, chLe a b = true ∨ chLe b a = true := by
  induction a with
  | nil => intro b; left; rfl
  | cons x xs ih =>
    intro b
    cases b with
    | nil => right; rfl
    | cons y ys =>
      rcases lt_trichotomy x y with h | h | h
      · left; rw [chLe_cons]; exact Or.inl h
      · subst h
        rcases ih ys with h2 | h2
        · left; rw [chLe_cons]; exact Or.inr ⟨rfl, h2⟩
        · right; rw [chLe_cons]; exact Or.inr ⟨rfl, h2⟩
      · right; rw [chLe_cons]; exact Or.inl h

theorem chLe_trans (a : List Char) :
    ∀ b c : List Char, chLe a b = true → chLe b c = true → chLe a c = true := by
  induction a with
  | nil => intro b c _ _; rfl
  | cons x xs ih =>
    intro b c hab hbc
    cases b with
    | nil => simp [chLe] at hab
    | cons y ys =>
      cases c with
      | nil => simp [chLe] at hbc
      | cons z zs =>
        rw [chLe_cons] at hab hbc ⊢
        rcases hab with h | ⟨he, h⟩
        · rcases hbc with h2 | ⟨he2, h2⟩
          · exact Or.inl (lt_trans h h2)
          · exact Or.inl (he2 ▸ h)
        · rcases hbc with h2 | ⟨he2, h2⟩
          · exact Or.inl (he ▸ h2)
          · exact Or.inr ⟨he.trans he2, ih ys zs h h2⟩

theorem keyLe_iff (x y : ℚ × String) :
    keyLe x y = true ↔ x.1 < y.1 ∨ (x.1 = y.1 ∧ pyStrLe x.2 y.2 = true) := by
  simp [keyLe]

theorem keyLe_trans (x y z : ℚ × String)
    (hxy : keyLe x y = true) (hyz : keyLe y z = true) : keyLe x z = true := by
  rw [keyLe_iff] at hxy hyz ⊢
  rcases hxy with h | ⟨he, h⟩
  · rcases hyz with h2 | ⟨he2, h2⟩
    · exact Or.inl (lt_trans h h2)
    · exact Or.inl (he2 ▸ h)
  · rcases hyz with h2 | ⟨he2, h2⟩
    · exact Or.inl (he ▸ h2)
    · exact Or.inr ⟨he.trans he2, chLe_trans _ _ _ h h2⟩

theorem keyLe_total (x y : ℚ × String) : (keyLe x y || keyLe y x) = true := by
  rw [Bool.or_eq_true, keyLe_iff, keyLe_iff]
  rcases lt_trichotomy x.1 y.1 with h | h | h
  · exact Or.inl (Or.inl h)
  · rcases chLe_total x.2.data y.2.data with hs | hs
    · exact Or.inl (Or.inr ⟨h, hs⟩)
    · exact Or.inr (Or.inr ⟨h.symm, hs⟩)
  · exact Or.inr (Or.inl h)

theorem if_gt_eq_max (acc r : ℚ) : (if r > acc then r else acc) = max acc r := by
  rw [max_def]
  split_ifs with h1 h2 h3
  · rfl
  · exact absurd (le_of_lt h1) h2
  · exact le_antisymm h3 (le_of_not_lt h1)
  · rfl

theorem hrfa_foldl (a : String) (l : List Movie) : ∀ acc : ℚ,
    l.foldl
        (fun highest m =>
          if strContains m.cast a then
            if m.rating > highest then m.rating else highest
          else highest) acc
      = ((l.filter (fun m => strContains m.cast a)).map Movie.rating).foldl max acc := by
  induction l with
  | nil => intro acc; rfl
  | cons m ms ih =>
    intro acc
    simp only [List.foldl_cons, List.filter_cons]
    by_cases hm : strContains m.cast a = true
    · rw [if_pos hm, if_pos hm, List.map_cons, List.foldl_cons, if_gt_eq_max]
      exact ih (max acc m.rating)
    · rw [if_neg hm, if_neg hm]
      exact ih acc

theorem hrfa_eq_foldmax (a : String) (data : List Movie) :
    highest_rating_for_actor a data
      = ((data.filter (fun m => strContains m.cast a)).map Movie.rating).foldl max 0 :=
  hrfa_foldl a data 0

theorem chSplit_ne_nil (sep : Char) (l : List Char) : chSplit sep l ≠ [] := by
  induction l with
  | nil => simp [chSplit]
  | cons c cs ih =>
    show (if c == sep then [] :: chSplit sep cs
      else match chSplit sep cs with
        | [] => [[c]]
        | cur :: rest => (c :: cur) :: rest) ≠ []
    split
    · simp
    · split <;> simp

theorem pySplit_ne_nil (sep : Char) (s : String) : pySplit sep s ≠ [] := by
  unfold pySplit
  intro h
  exact chSplit_ne_nil sep s.data (List.map_eq_nil_iff.mp h)

theorem strContains_empty_needle (hay : String) : strContains hay "" = true := by
  show isSubstrB [] hay.data = true
  cases hay.data with
  | nil => rfl
  | cons c t => rfl

theorem list_contains_iff (l : List String) (a : String) : l.contains a = true ↔ a ∈ l := by
  simp

theorem except_map_eq_error_iff {A B : Type} (f : A → B) (x : Except Unit A) :
    x.map f = Except.error () ↔ x = Except.error () := by
  cases x <;> simp [Except.map]

/-! ### Claim theorems -/

/-- C1: for every dataset, genre filter and limit, the sequence returned by
`top_n` is sorted: every pair of adjacent entries `(a, b)` satisfies
`score a > score b`, or `score a = score b` and `title a ≤ title b` in
lexicographic code-point order. -/
theorem topn_output_sorted (data : List Movie) (genre : String) (n : Int) :
    List.Chain'
      (fun a b : String × ℚ => b.2 < a.2 ∨ (a.2 = b.2 ∧ pyStrLe a.1 b.1 = true))
      (top_n data genre n) := by
  have hp : List.Pairwise
      (fun x y : String × ℚ × ℚ => keyLe (sort_key x) (sort_key y) = true)
      (sortedMovies data genre) :=
    @List.sorted_mergeSort _ (fun x y => keyLe (sort_key x) (sort_key y))
      (fun x y z => keyLe_trans (sort_key x) (sort_key y) (sort_key z))
      (fun x y => keyLe_total (sort_key x) (sort_key y))
      (movieTuples data genre)
  have hp2 : List.Pairwise
      (fun x y : String × ℚ × ℚ => keyLe (sort_key x) (sort_key y) = true)
      (if 0 < n then (sortedMovies data genre).take n.toNat else sortedMovies data genre) := by
    split
    · exact List.Pairwise.sublist (List.take_sublist _ _) hp
    · exact hp
  unfold top_n
  rw [List.chain'_map]
  refine List.Chain'.imp ?_ hp2.chain'
  intro x y hxy
  rw [keyLe_iff] at hxy
  rcases hxy with h | ⟨he, h⟩
  · exact Or.inl (neg_lt_neg_iff.mp h)
  · exact Or.inr ⟨neg_inj.mp he, h⟩

/-- C8: `top_n` mutates no state — in the state-threaded embedding a call
leaves the dataset untouched, so a second call with identical inputs,
run on the state the first call left behind, returns an identical output. -/
theorem topn_idempotent (data : List Movie) (genre : String) (n : Int) :
    (top_n_run data genre n).1 = (top_n_run (top_n_run data genre n).2 genre n).1
    ∧ (top_n_run data genre n).2 = data :=
  ⟨rfl, rfl⟩

/-- C9: `top_n` only reads its arguments: the state-threaded embedding
returns the input list unchanged, and its result component is exactly
`top_n`'s. -/
theorem topn_preserves_input (data : List Movie) (genre : String) (n : Int) :
    (top_n_run data genre n).2 = data ∧ (top_n_run data genre n).1 = top_n data genre n :=
  ⟨rfl, rfl⟩

/-- C2, counterexample: `Ann` appears in the cast tokens of the first
record of `c2data` (rating 5) and in no other record's cast tokens, yet the
rating the code uses for `Ann` is 9, because `Ann` is a substring of the
second record's raw cast string `Anna`; the claim's token-based maximum is 5. -/
theorem actor_rating_substring_counterexample :
    (castTokens (⟨"A", "", "Ann", 5⟩ : Movie)).contains "Ann" = true
    ∧ highest_rating_for_actor "Ann" c2data = 9
    ∧ claimActorMax "Ann" c2data = 5 := by
  decide

/-- C2, amended: the rating used for an actor name equals the maximum
(floored at zero) of the ratings of the records whose raw cast string
contains the name as a substring — not token membership — and it is
computed over the unfiltered dataset: under any genre filter, a passing
record is scored with `actorRatingOf data`, which never consults the
filter. -/
theorem actor_rating_substring_max (data : List Movie) (a : String) :
    highest_rating_for_actor a data
        = ((data.filter (fun m => strContains m.cast a)).map Movie.rating).foldl max 0
    ∧ ∀ (genre : String) (m : Movie), m ∈ data → passesGenre genre m = true →
        (m.title, m.rating, actorRatingOf data m) ∈ movieTuples data genre := by
  refine ⟨hrfa_eq_foldmax a data, ?_⟩
  intro genre m hm hp
  exact List.mem_map.mpr ⟨m, List.mem_filter.mpr ⟨hm, hp⟩, rfl⟩

/-- C2, witness: the amended theorem applied to `c2data`, the empty genre
filter and its first record. -/
theorem actor_rating_substring_max_witness :
    (⟨"A", "", "Ann", 5⟩ : Movie) ∈ c2data
    ∧ passesGenre "" (⟨"A", "", "Ann", 5⟩ : Movie) = true
    ∧ ((⟨"A", "", "Ann", 5⟩ : Movie).title, (⟨"A", "", "Ann", 5⟩ : Movie).rating,
        actorRatingOf c2data ⟨"A", "", "Ann", 5⟩) ∈ movieTuples c2data "" :=
  ⟨by decide, by decide,
    (actor_rating_substring_max c2data "Ann").2 "" ⟨"A", "", "Ann", 5⟩ (by decide) (by decide)⟩

/-- C3, counterexample: with filter `"Action, Horror"` the record with
genre `Horror` is rejected by the code — the requested tokens are not
trimmed, so ` Horror` never equals the trimmed record token `Horror` —
while the claim's trimmed-token intersection accepts it. -/
theorem genre_filter_trim_counterexample :
    passesGenre "Action, Horror" c3movie = false
    ∧ claimPasses "Action, Horror" c3movie = true := by
  decide

/-- C3, amended: the empty filter passes every record; otherwise a record
passes if and only if some raw (untrimmed) comma-split token of the filter
equals some trimmed comma-split genre token of the record (any-match). -/
theorem genre_filter_any_match (genre : String) (m : Movie) :
    passesGenre genre m = true
      ↔ (genre = "" ∨ ∃ t ∈ pySplit ',' genre, t ∈ movieGenreSet m) := by
  unfold passesGenre genreSet
  by_cases hg : genre = ""
  · subst hg
    simp
  · have hbeq : (genre == "") = false := by simp [hg]
    rw [hbeq]
    have hne : pySplit ',' genre ≠ [] := pySplit_ne_nil ',' genre
    simp [List.isEmpty_iff, hne, hg, List.any_eq_true]

/-- C4: when `n > 0`, `top_n` returns the first `n` entries of the full
sorted sequence, so its length is at most `n`; when `n = 0` it returns the
entire sorted sequence, whose length is the number of genre-matching
records. -/
theorem topn_truncation (data : List Movie) (genre : String) (n : Int) :
    (0 < n →
        top_n data genre n
            = ((sortedMovies data genre).map (fun t => (t.1, (t.2.1 + t.2.2) / 2))).take n.toNat
          ∧ (top_n data genre n).length ≤ n.toNat)
    ∧ (n = 0 →
        top_n data genre n
            = (sortedMovies data genre).map (fun t => (t.1, (t.2.1 + t.2.2) / 2))
          ∧ (top_n data genre n).length
            = (data.filter (fun m => passesGenre genre m)).length) := by
  constructor
  · intro hn
    constructor
    · unfold top_n
      rw [if_pos hn, List.map_take]
    · unfold top_n
      rw [if_pos hn, List.length_map, List.length_take]
      exact min_le_left _ _
  · intro hn
    subst hn
    constructor
    · unfold top_n
      rw [if_neg (lt_irrefl 0)]
    · unfold top_n
      rw [if_neg (lt_irrefl 0), List.length_map]
      unfold sortedMovies
      rw [List.length_mergeSort]
      unfold movieTuples
      rw [List.length_map]

/-- C4, witness: the truncation theorem applied to a two-record dataset
with limits 1 and 0. -/
theorem topn_truncation_witness :
    (top_n c4data "" 1
        = ((sortedMovies c4data "").map (fun t => (t.1, (t.2.1 + t.2.2) / 2))).take (1 : Int).toNat
      ∧ (top_n c4data "" 1).length ≤ (1 : Int).toNat)
    ∧ (top_n c4data "" 0
        = (sortedMovies c4data "").map (fun t => (t.1, (t.2.1 + t.2.2) / 2))
      ∧ (top_n c4data "" 0).length = (c4data.filter (fun m => passesGenre "" m)).length) :=
  ⟨(topn_truncation c4data "" 1).1 (by decide), (topn_truncation c4data "" 0).2 rfl⟩

/-- C5: every trimmed cast token of a record of the dataset resolves in
the actor index built from that same dataset (each token occurs in the
record's own cast), so the set of members excluded from the actor-rating
mean is empty — the mean over the resolving members is the mean the code
computes over the whole cast — and the no-member-resolves fallback
condition never holds (it implies a contradiction). -/
theorem cast_members_all_resolve (data : List Movie) (m : Movie) (hm : m ∈ data) :
    (∀ a ∈ castTokens m, inActorIndex a data = true)
    ∧ actorRatingOf data m
        = (((castList m).filter (fun x => inActorIndex (pyStrip x) data)).map
              (fun x => highest_rating_for_actor (pyStrip x) data)).sum
          / (((castList m).filter (fun x => inActorIndex (pyStrip x) data)).length : ℚ)
    ∧ ((∀ a ∈ castTokens m, inActorIndex a data = false) → actorRatingOf data m = m.rating) := by
  have hall : ∀ a ∈ castTokens m, inActorIndex a data = true := by
    intro a ha
    unfold inActorIndex
    rw [List.any_eq_true]
    exact ⟨m, hm, (list_contains_iff _ _).mpr ha⟩
  have hne : castList m ≠ [] := pySplit_ne_nil ',' m.cast
  have hfilter : (castList m).filter (fun x => inActorIndex (pyStrip x) data) = castList m :=
    List.filter_eq_self.mpr (fun x hx => hall (pyStrip x) (List.mem_map_of_mem _ hx))
  refine ⟨hall, ?_, ?_⟩
  · rw [hfilter]
    unfold actorRatingOf
    rw [if_neg (by simp [List.isEmpty_iff, hne])]
  · intro hnone
    obtain ⟨a, ha⟩ : ∃ a, a ∈ castTokens m := by
      have h2 : castTokens m ≠ [] := by
        unfold castTokens
        simp [hne]
      exact List.exists_mem_of_ne_nil _ h2
    have htrue := hall a ha
    rw [hnone a ha] at htrue
    exact absurd htrue (by simp)

/-- C5, witness: the resolution theorem applied to the one-record dataset
`c5data` and its record. -/
theorem cast_members_all_resolve_witness :
    (∀ a ∈ castTokens (⟨"A", "G", "X, Y", 6⟩ : Movie), inActorIndex a c5data = true)
    ∧ actorRatingOf c5data ⟨"A", "G", "X, Y", 6⟩
        = (((castList (⟨"A", "G", "X, Y", 6⟩ : Movie)).filter
              (fun x => inActorIndex (pyStrip x) c5data)).map
              (fun x => highest_rating_for_actor (pyStrip x) c5data)).sum
          / (((castList (⟨"A", "G", "X, Y", 6⟩ : Movie)).filter
              (fun x => inActorIndex (pyStrip x) c5data)).length : ℚ)
    ∧ ((∀ a ∈ castTokens (⟨"A", "G", "X, Y", 6⟩ : Movie), inActorIndex a c5data = false) →
        actorRatingOf c5data ⟨"A", "G", "X, Y", 6⟩ = (⟨"A", "G", "X, Y", 6⟩ : Movie).rating) :=
  cast_members_all_resolve c5data ⟨"A", "G", "X, Y", 6⟩ (by decide)

/-- C7: the derived highest rating of an actor is invariant under
permutations of the record list. -/
theorem actor_index_perm_invariant (a : String) (l₁ l₂ : List Movie) (h : l₁.Perm l₂) :
    highest_rating_for_actor a l₁ = highest_rating_for_actor a l₂ := by
  unfold highest_rating_for_actor
  refine @List.Perm.foldl_eq _ _ _ l₁ l₂ ⟨?_⟩ h 0
  intro b m₁ m₂
  by_cases h1 : strContains m₁.cast a = true <;> by_cases h2 : strContains m₂.cast a = true <;>
    simp only [h1, h2, if_true, if_false, Bool.false_eq_true, if_gt_eq_max]
  · rw [max_assoc, max_comm m₁.rating m₂.rating, ← max_assoc]

/-- C7, witness: the permutation-invariance theorem applied to a
two-record list and its swap. -/
theorem actor_index_perm_invariant_witness :
    List.Perm [c7m1, c7m2] [c7m2, c7m1]
    ∧ highest_rating_for_actor "X" [c7m1, c7m2] = highest_rating_for_actor "X" [c7m2, c7m1] :=
  ⟨by decide, actor_index_perm_invariant "X" [c7m1, c7m2] [c7m2, c7m1] (by decide)⟩

/-- C10: a record whose cast field is the empty string is scored with an
actorRating equal to the maximum (floored at zero) of all ratings of the
dataset, because the cast splits into the single empty-string actor name
and the empty string is a substring of every cast string. -/
theorem empty_cast_actor_rating (data : List Movie) (m : Movie) (hc : m.cast = "") :
    actorRatingOf data m = (data.map Movie.rating).foldl max 0
    ∧ ∀ hay : String, strContains hay "" = true := by
  refine ⟨?_, strContains_empty_needle⟩
  unfold actorRatingOf castList
  rw [hc]
  rw [show pySplit ',' "" = [""] from rfl]
  rw [if_neg (by decide)]
  simp only [List.map_cons, List.map_nil, List.sum_cons, List.sum_nil, List.length_cons,
    List.length_nil, add_zero, zero_add, Nat.cast_one, div_one]
  rw [show pyStrip "" = "" from rfl, hrfa_eq_foldmax]
  rw [List.filter_eq_self.mpr (fun x _ => strContains_empty_needle x.cast)]

/-- C10, witness: the empty-cast theorem applied to `c10data` and its
first record. -/
theorem empty_cast_actor_rating_witness :
    actorRatingOf c10data ⟨"A", "G", "", 5⟩ = (c10data.map Movie.rating).foldl max 0
    ∧ ∀ hay : String, strContains hay "" = true :=
  empty_cast_actor_rating c10data ⟨"A", "G", "", 5⟩ rfl

/-- C6, counterexample: on a file whose first data line has the unparsable
year field `beta`, `read_file` aborts the whole load with an error instead
of skipping the line, while the claim's skip-and-continue loader returns
the later well-formed record. -/
theorem read_file_aborts_counterexample :
    read_file c6lines 0 = Except.error ()
    ∧ read_file_skipping c6lines 0
        = [["2", "U", "G", "D", "Dir", "C", "2000", "100", "6.0", "10", "1.0", "50.0"]] :=
  ⟨rfl, by decide⟩

/-- C6, amended: `read_file` fails — aborting the entire load — exactly
when some data line is malformed (no seventh field after splitting on
semicolons, or a year field not parseable as an integer); no record of a
malformed input is ever returned, and the rating field is never examined
during loading. -/
theorem read_file_error_iff (year : Int) (hd : String) (body : List String) :
    read_file (hd :: body) year = Except.error ()
      ↔ ∃ l ∈ body, malformedLine l = true := by
  show readLoop year body = Except.error () ↔ _
  induction body with
  | nil => simp [readLoop]
  | cons l ls ih =>
    cases hy : (pySplit ';' (pyStrip l))[6]?.bind pyInt with
    | none =>
      constructor
      · intro _
        exact ⟨l, List.mem_cons_self l ls, by unfold malformedLine; rw [hy]; rfl⟩
      · intro _
        simp only [readLoop, hy]
    | some yv =>
      have hml : malformedLine l = false := by
        unfold malformedLine
        rw [hy]
        rfl
      by_cases hyr : year ≤ yv
      · simp only [readLoop, hy, if_pos hyr]
        rw [except_map_eq_error_iff, ih]
        simp [hml]
      · simp only [readLoop, hy, if_neg hyr]
        rw [ih]
        simp [hml]
